import Mathlib

/-!
Shallow embedding of the catalog ingestion engine
(`plugins/catalog-backend/src/ingestion/LocationReaders.ts`).

The engine reads a location through a chain of processors: a bounded,
round-based work-item expansion loop (`read`), per-variant dispatch
(`handleLocation`, `handleData`, `handleEntity`, `handleError`), and an
admission gate (`rulesEnforcer.isAllowed`) applied to produced entities.

Modelling choices:
* A processor hook that may call `emit` any number of times and may throw
  is modelled as a function returning the list of items it emitted (in
  emission order, kept even when the hook subsequently throws, since the
  source `emit` pushes directly into the shared `newItems` array) together
  with `Except String α`: `Except.error e` models a thrown exception whose
  string form is `e`.
* JavaScript `Error` objects are modelled by `CatalogError`; the
  `result.generalError` / `result.inputError` constructors (from
  `processors/results.ts`, outside the given sources) are modelled from the
  spec: the spec's error taxonomy distinguishes unhandled-input errors from
  general (processor-fault and similar) errors, so the two constructors
  produce the two distinct classes `CatalogError.input` / `CatalogError.general`.
* The rules enforcer (from `CatalogRules.ts`, outside the given sources) is
  modelled from the spec as an abstract function `isAllowed : Entity →
  LocationSpec → Bool`, exactly the contract the spec states for it.
* The winston logger is modelled as an accumulated list of
  `(LogLevel × String)` messages, so that the debug/warning calls of the
  source are observable.
-/

/-- `LocationSpec`: `{ type, target }` identifying a source. -/
structure LocationSpec where
  type : String
  target : String
deriving DecidableEq, Repr

/-- An entity record: the engine only ever inspects `apiVersion` and `kind`;
`attrs` stands for the otherwise opaque payload. -/
structure Entity where
  apiVersion : String
  kind : String
  attrs : List (String × String)
deriving DecidableEq, Repr

/-- Modelled from the spec: the error classes produced by the
`processors/results.ts` constructors (not among the given sources).  The
spec's taxonomy separates unhandled-input errors (`result.inputError`) from
other errors (`result.generalError`, also used for processor faults);
`new Error(...)` in the engine itself is the general class. -/
inductive CatalogError where
  | general (message : String)
  | input (message : String)
deriving DecidableEq, Repr

/-- The tagged work-item union `LocationProcessorResult`. -/
inductive LocationProcessorResult where
  | location (location : LocationSpec) (optional : Bool)
  | data (location : LocationSpec) (data : List Nat)
  | entity (location : LocationSpec) (entity : Entity)
  | error (location : LocationSpec) (error : CatalogError)
deriving DecidableEq, Repr

/-- A processor: a capability set of four optional hooks.  Each hook returns
the items it emitted plus either its return value or the exception it threw.
`name` models `processor.constructor.name`. -/
structure LocationProcessor where
  name : String
  readLocation :
    Option (LocationSpec → Bool → List LocationProcessorResult × Except String Bool) := none
  parseData :
    Option (List Nat → LocationSpec → List LocationProcessorResult × Except String Bool) := none
  processEntity :
    Option (Entity → LocationSpec → List LocationProcessorResult × Except String Entity) := none
  handleError :
    Option (CatalogError → LocationSpec → List LocationProcessorResult × Except String Unit) := none

/-- The engine: the processor chain and the rules enforcer.  Modelled from
the spec: `isAllowed` is the §4.3 contract of `CatalogRulesEnforcer`
(`CatalogRules.ts` is not among the given sources). -/
structure LocationReaders where
  processors : List LocationProcessor
  isAllowed : Entity → LocationSpec → Bool

/-- `MAX_DEPTH`: the max amount of nesting depth of generated work items. -/
def MAX_DEPTH : Nat := 10

inductive LogLevel where
  | debug
  | warn
deriving DecidableEq, Repr

/-- String form of an error, as JavaScript template interpolation would
produce for an `Error` / `InputError` instance. -/
def CatalogError.toMessageString : CatalogError → String
  | CatalogError.general m => "Error: " ++ m
  | CatalogError.input m => "InputError: " ++ m

def readThrewMsg (pname : String) (loc : LocationSpec) (e : String) : String :=
  "Processor " ++ pname ++ " threw an error while reading location " ++
    loc.type ++ " " ++ loc.target ++ ", " ++ e

def noReadMsg (loc : LocationSpec) : String :=
  "No processor was able to read location " ++ loc.type ++ " " ++ loc.target

def parseThrewMsg (pname : String) (loc : LocationSpec) (e : String) : String :=
  "Processor " ++ pname ++ " threw an error while parsing " ++
    loc.type ++ " " ++ loc.target ++ ", " ++ e

def noParseMsg (loc : LocationSpec) : String :=
  "No processor was able to parse location " ++ loc.type ++ " " ++ loc.target

def entityThrewMsg (pname : String) (loc : LocationSpec) (e : String) : String :=
  "Processor " ++ pname ++ " threw an error while processing entity at " ++
    loc.type ++ " " ++ loc.target ++ ", " ++ e

def errorThrewMsg (pname : String) (loc : LocationSpec) (e : String) : String :=
  "Processor " ++ pname ++ " threw an error while handling another error at " ++
    loc.type ++ " " ++ loc.target ++ ", " ++ e

def notAllowedMsg (ent : Entity) (loc : LocationSpec) : String :=
  "Entity of kind " ++ ent.kind ++ " is not allowed from location " ++
    loc.target ++ ":" ++ loc.type

def maxDepthMsg (loc : LocationSpec) : String :=
  "Max recursion depth " ++ toString MAX_DEPTH ++ " reached for " ++
    loc.type ++ " " ++ loc.target

def readingLogMsg (loc : LocationSpec) (optional : Bool) : String :=
  "Reading location " ++ loc.type ++ " " ++ loc.target ++ " optional=" ++ toString optional

def parsingLogMsg (loc : LocationSpec) (d : List Nat) : String :=
  "Parsing data from location " ++ loc.type ++ " " ++ loc.target ++
    " (" ++ toString d.length ++ " bytes)"

def gotEntityLogMsg (loc : LocationSpec) (ent : Entity) : String :=
  "Got entity at location " ++ loc.type ++ " " ++ loc.target ++ ", " ++
    ent.apiVersion ++ " " ++ ent.kind

def encounteredErrorLogMsg (loc : LocationSpec) (err : CatalogError) : String :=
  "Encountered error at location " ++ loc.type ++ " " ++ loc.target ++ ", " ++
    err.toMessageString

/-- `handleLocation`'s chain walk (lines 164-180): try each processor's
`readLocation` in registration order; a handled (`true`) return stops the
chain; a thrown exception is caught, wrapped as a general-error item and the
chain continues; if no processor handled the item, one unhandled-input error
item is emitted at the end. -/
def handleLocationChain (processors : List LocationProcessor) (loc : LocationSpec)
    (optional : Bool) : List LocationProcessorResult :=
  match processors with
  | [] => [LocationProcessorResult.error loc (CatalogError.input (noReadMsg loc))]
  | p :: rest =>
    match p.readLocation with
    | none => handleLocationChain rest loc optional
    | some f =>
      match f loc optional with
      | (emitted, Except.ok true) => emitted
      | (emitted, Except.ok false) => emitted ++ handleLocationChain rest loc optional
      | (emitted, Except.error e) =>
        emitted ++
          [LocationProcessorResult.error loc (CatalogError.general (readThrewMsg p.name loc e))] ++
          handleLocationChain rest loc optional

/-- `handleData`'s chain walk (lines 191-205), identical first-match-wins
discipline over the `parseData` capability. -/
def handleDataChain (processors : List LocationProcessor) (d : List Nat)
    (loc : LocationSpec) : List LocationProcessorResult :=
  match processors with
  | [] => [LocationProcessorResult.error loc (CatalogError.input (noParseMsg loc))]
  | p :: rest =>
    match p.parseData with
    | none => handleDataChain rest d loc
    | some f =>
      match f d loc with
      | (emitted, Except.ok true) => emitted
      | (emitted, Except.ok false) => emitted ++ handleDataChain rest d loc
      | (emitted, Except.error e) =>
        emitted ++
          [LocationProcessorResult.error loc (CatalogError.general (parseThrewMsg p.name loc e))] ++
          handleDataChain rest d loc

/-- `handleEntity`'s chain walk (lines 216-229): every processor with a
`processEntity` capability is invoked in registration order; `current` is
threaded through (a fold); a throwing processor leaves `current` unchanged
and contributes a wrapped general-error item.  Returns the final entity and
all items emitted along the chain, in order. -/
def handleEntityChain (processors : List LocationProcessor) (current : Entity)
    (loc : LocationSpec) : Entity × List LocationProcessorResult :=
  match processors with
  | [] => (current, [])
  | p :: rest =>
    match p.processEntity with
    | none => handleEntityChain rest current loc
    | some f =>
      match f current loc with
      | (emitted, Except.ok next) =>
        let tail := handleEntityChain rest next loc
        (tail.1, emitted ++ tail.2)
      | (emitted, Except.error e) =>
        let tail := handleEntityChain rest current loc
        (tail.1,
          emitted ++
            [LocationProcessorResult.error loc
              (CatalogError.general (entityThrewMsg p.name loc e))] ++
            tail.2)

/-- `handleError`'s chain walk (lines 240-249): every processor with a
`handleError` capability is invoked for its side effects; throws are caught
and wrapped; return values are ignored. -/
def handleErrorChain (processors : List LocationProcessor) (err : CatalogError)
    (loc : LocationSpec) : List LocationProcessorResult :=
  match processors with
  | [] => []
  | p :: rest =>
    match p.handleError with
    | none => handleErrorChain rest err loc
    | some f =>
      match f err loc with
      | (emitted, Except.ok _) => emitted ++ handleErrorChain rest err loc
      | (emitted, Except.error e) =>
        emitted ++
          [LocationProcessorResult.error loc
            (CatalogError.general (errorThrewMsg p.name loc e))] ++
          handleErrorChain rest err loc

/-- What one dispatched item contributes: output entities, output errors,
items emitted for the next round, and log messages. -/
structure StepOut where
  entities : List (Entity × LocationSpec)
  errors : List (LocationSpec × CatalogError)
  emitted : List LocationProcessorResult
  log : List (LogLevel × String)
deriving DecidableEq, Repr

def StepOut.empty : StepOut :=
  { entities := [], errors := [], emitted := [], log := [] }

def StepOut.append (a b : StepOut) : StepOut :=
  { entities := a.entities ++ b.entities
    errors := a.errors ++ b.errors
    emitted := a.emitted ++ b.emitted
    log := a.log ++ b.log }

/-- Dispatch of one work item by variant tag (lines 114-141 of `read`). -/
def processItem (E : LocationReaders) (item : LocationProcessorResult) : StepOut :=
  match item with
  | LocationProcessorResult.location loc opt =>
    { entities := []
      errors := []
      emitted := handleLocationChain E.processors loc opt
      log := [(LogLevel.debug, readingLogMsg loc opt)] }
  | LocationProcessorResult.data loc d =>
    { entities := []
      errors := []
      emitted := handleDataChain E.processors d loc
      log := [(LogLevel.debug, parsingLogMsg loc d)] }
  | LocationProcessorResult.entity loc ent =>
    if E.isAllowed ent loc then
      let chain := handleEntityChain E.processors ent loc
      { entities := [(chain.1, loc)]
        errors := []
        emitted := chain.2
        log := [(LogLevel.debug, gotEntityLogMsg loc ent)] }
    else
      { entities := []
        errors := [(loc, CatalogError.general (notAllowedMsg ent loc))]
        emitted := []
        log := [] }
  | LocationProcessorResult.error loc err =>
    { entities := []
      errors := [(loc, err)]
      emitted := handleErrorChain E.processors err loc
      log := [(LogLevel.debug, encounteredErrorLogMsg loc err)] }

/-- One round: each pending item is dispatched in order; the contributions
are concatenated in processing order. -/
def processRound (E : LocationReaders) : List LocationProcessorResult → StepOut
  | [] => StepOut.empty
  | i :: rest => StepOut.append (processItem E i) (processRound E rest)

/-- The engine's output: `ReadLocationResult`. -/
structure ReadLocationResult where
  entities : List (Entity × LocationSpec)
  errors : List (LocationSpec × CatalogError)
deriving DecidableEq, Repr

def emptyOutput : ReadLocationResult := { entities := [], errors := [] }

/-- The round loop of `read` (lines 110-153), with the remaining round count
as explicit fuel: `fuel = MAX_DEPTH - depth`.  At fuel 0 the loop has run
`MAX_DEPTH` rounds with work still pending: the warning is logged, one
recursion-limit error for the original input location is appended, and the
pending items are discarded. -/
def readGo (E : LocationReaders) (location : LocationSpec) :
    Nat → ReadLocationResult → List (LogLevel × String) → List LocationProcessorResult →
    ReadLocationResult × List (LogLevel × String)
  | 0, output, log, _ =>
    ({ output with
        errors := output.errors ++ [(location, CatalogError.general (maxDepthMsg location))] },
      log ++ [(LogLevel.warn, maxDepthMsg location)])
  | fuel + 1, output, log, items =>
    let s := processRound E items
    let output' : ReadLocationResult :=
      { entities := output.entities ++ s.entities, errors := output.errors ++ s.errors }
    if s.emitted = [] then (output', log ++ s.log)
    else readGo E location fuel output' (log ++ s.log) s.emitted

/-- `read` together with the logger's message stream. -/
def readWithLog (E : LocationReaders) (location : LocationSpec) :
    ReadLocationResult × List (LogLevel × String) :=
  readGo E location MAX_DEPTH emptyOutput []
    [LocationProcessorResult.location location false]

/-- `LocationReaders.read` (lines 106-154). -/
def read (E : LocationReaders) (location : LocationSpec) : ReadLocationResult :=
  (readWithLog E location).1

/-! ## Concrete processors and engines used as test inputs -/

def inputLocation : LocationSpec := { type := "file", target := "./x" }

/-- A processor whose `readLocation` always emits a fresh `LocationResult`
for the same location and reports the item handled. -/
def selfLoopProcessor : LocationProcessor :=
  { name := "SelfLoop"
    readLocation := some fun loc _ =>
      ([LocationProcessorResult.location loc false], Except.ok true) }

def engineC3 : LocationReaders :=
  { processors := [selfLoopProcessor], isAllowed := fun _ _ => true }

/-- A processor whose `readLocation` always throws. -/
def throwProcessor : LocationProcessor :=
  { name := "Thrower"
    readLocation := some fun _ _ => ([], Except.error "Error: boom") }

def engineC9 : LocationReaders :=
  { processors := [throwProcessor], isAllowed := fun _ _ => true }

/-- A processor that keeps emitting ever longer locations and throws once the
target has grown to length 12 — which happens exactly in round 10, the final
round before the recursion bound. -/
def growThrowProcessor : LocationProcessor :=
  { name := "GrowThrow"
    readLocation := some fun loc _ =>
      if loc.target.length ≥ 12 then ([], Except.error "Error: boom")
      else
        ([LocationProcessorResult.location { type := loc.type, target := loc.target ++ "x" } false],
          Except.ok true) }

def engineC1 : LocationReaders :=
  { processors := [growThrowProcessor], isAllowed := fun _ _ => true }

/-- The location that `engineC1` processes in round 10 (target of length 12). -/
def finalRoundLocation : LocationSpec := { type := "file", target := "./xxxxxxxxxx" }

/-- A processor that consumes every location silently (handled, no emission). -/
def consumeProcessor : LocationProcessor :=
  { name := "Consume"
    readLocation := some fun _ _ => ([], Except.ok true) }

def engineC7 : LocationReaders :=
  { processors := [consumeProcessor], isAllowed := fun _ _ => true }

/-! ## C1 -/

/-- C1 (counterexample): with `engineC1`, a processor fault occurs in round 10
(the item for `finalRoundLocation` is processed there and its `readLocation`
throws, emitting a processor-fault error item followed by an unhandled-input
error item), yet `read` returns with the recursion-limit entry as its *only*
error: the fault and the unhandled-input failure of the final round appear
nowhere in the output, refuting "every failure of any of the four error
classes appears as an entry of the returned errors list".  The third conjunct
shows the final-round step: starting from that pending item with one round of
fuel left, the emitted error items are discarded. -/
theorem claim1_counterexample :
    read engineC1 inputLocation =
      { entities := []
        errors := [(inputLocation, CatalogError.general (maxDepthMsg inputLocation))] } ∧
    (processItem engineC1 (LocationProcessorResult.location finalRoundLocation false)).emitted =
      [LocationProcessorResult.error finalRoundLocation
          (CatalogError.general (readThrewMsg "GrowThrow" finalRoundLocation "Error: boom")),
        LocationProcessorResult.error finalRoundLocation
          (CatalogError.input (noReadMsg finalRoundLocation))] ∧
    readGo engineC1 inputLocation 1 emptyOutput []
        [LocationProcessorResult.location finalRoundLocation false] =
      ({ entities := []
         errors := [(inputLocation, CatalogError.general (maxDepthMsg inputLocation))] },
        [(LogLevel.debug, readingLogMsg finalRoundLocation false),
          (LogLevel.warn, maxDepthMsg inputLocation)]) := by
  refine ⟨by decide, by decide, by decide⟩

/-- C1 (amended): `read` never raises (it is a total function by
construction), and failures are recorded as follows: an error item processed
in any round contributes exactly its `(location, error)` entry to the output
errors; a policy rejection appends its error entry directly; and when the
round bound is exhausted, exactly the recursion-limit entry for the original
input location is appended, the pending items (among them any processor-fault
or unhandled-input error items emitted in the final round) being discarded. -/
theorem claim1_failures_recorded :
    (∀ (E : LocationReaders) (loc : LocationSpec) (err : CatalogError),
      (processItem E (LocationProcessorResult.error loc err)).errors = [(loc, err)]) ∧
    (∀ (E : LocationReaders) (loc : LocationSpec) (ent : Entity),
      (processItem E (LocationProcessorResult.entity loc ent)).errors =
        if E.isAllowed ent loc then []
        else [(loc, CatalogError.general (notAllowedMsg ent loc))]) ∧
    (∀ (E : LocationReaders) (loc : LocationSpec) (out : ReadLocationResult)
        (log : List (LogLevel × String)) (items : List LocationProcessorResult),
      readGo E loc 0 out log items =
        ({ out with
            errors := out.errors ++ [(loc, CatalogError.general (maxDepthMsg loc))] },
          log ++ [(LogLevel.warn, maxDepthMsg loc)])) := by
  refine ⟨fun E loc err => rfl, fun E loc ent => ?_, fun E loc out log items => rfl⟩
  by_cases h : E.isAllowed ent loc <;> simp [processItem, h]

/-! ## C2 -/

/-- C2: dispatching an `EntityResult` checks the rules enforcer first.  If it
disallows the entity, exactly one policy error entry is appended, nothing is
appended to `entities`, and nothing is emitted (in particular no
`processEntity` hook ran, since every hook invocation in the entity pipeline
is observable through `handleEntityChain`, which is not consulted).  If it
allows the entity, the entity-transform pipeline `handleEntityChain` runs and
its final entity, paired with the item's location, is the single entry
appended to `entities`. -/
theorem claim2_policy_gate :
    ∀ (E : LocationReaders) (loc : LocationSpec) (ent : Entity),
      (processItem E (LocationProcessorResult.entity loc ent)).entities =
        (if E.isAllowed ent loc then [((handleEntityChain E.processors ent loc).1, loc)] else []) ∧
      (processItem E (LocationProcessorResult.entity loc ent)).errors =
        (if E.isAllowed ent loc then []
          else [(loc, CatalogError.general (notAllowedMsg ent loc))]) ∧
      (processItem E (LocationProcessorResult.entity loc ent)).emitted =
        (if E.isAllowed ent loc then (handleEntityChain E.processors ent loc).2 else []) := by
  intro E loc ent
  by_cases h : E.isAllowed ent loc <;> simp [processItem, h]

/-! ## C3 -/

/-- C3: `read` terminates within the round bound by construction (the fuel of
`readGo` starts at `MAX_DEPTH = 10` and strictly decreases).  First conjunct:
when the bound is exhausted with items still pending, exactly one
recursion-limit error naming the original input location is appended, the
warning is logged, and the pending items are discarded (the result does not
depend on them).  Second conjunct: the synthetic processor whose
`readLocation` always emits a new `LocationResult` drives `read` through
exactly 10 rounds (one debug log line per round) and ends with precisely the
recursion-limit error. -/
theorem claim3_recursion_bound :
    (∀ (E : LocationReaders) (loc : LocationSpec) (out : ReadLocationResult)
        (log : List (LogLevel × String)) (items : List LocationProcessorResult),
      readGo E loc 0 out log items =
        ({ out with
            errors := out.errors ++ [(loc, CatalogError.general (maxDepthMsg loc))] },
          log ++ [(LogLevel.warn, maxDepthMsg loc)])) ∧
    readWithLog engineC3 inputLocation =
      ({ entities := []
         errors := [(inputLocation, CatalogError.general (maxDepthMsg inputLocation))] },
        List.replicate 10 (LogLevel.debug, readingLogMsg inputLocation false) ++
          [(LogLevel.warn, maxDepthMsg inputLocation)]) := by
  refine ⟨fun E loc out log items => rfl, by decide⟩

/-! ## C7 -/

/-- C7: if processing the current round's items emits nothing new, the loop
returns immediately (at any remaining fuel, hence also on round 1) with the
output accumulated so far extended by this round's contributions — and with
no recursion-limit error appended. -/
theorem claim7_empty_round_returns :
    ∀ (E : LocationReaders) (loc : LocationSpec) (fuel : Nat) (out : ReadLocationResult)
      (log : List (LogLevel × String)) (items : List LocationProcessorResult),
      (processRound E items).emitted = [] →
      readGo E loc (fuel + 1) out log items =
        ({ entities := out.entities ++ (processRound E items).entities
           errors := out.errors ++ (processRound E items).errors },
          log ++ (processRound E items).log) := by
  intro E loc fuel out log items h
  simp [readGo, h]

/-- C7 witness: with a chain whose only processor consumes every location
without emitting, round 1 emits nothing and `read` returns at once. -/
theorem claim7_witness :
    (processRound engineC7 [LocationProcessorResult.location inputLocation false]).emitted = [] ∧
    readWithLog engineC7 inputLocation =
      ({ entities := [], errors := [] },
        [(LogLevel.debug, readingLogMsg inputLocation false)]) :=
  ⟨by decide,
    by
      have h := claim7_empty_round_returns engineC7 inputLocation 9 emptyOutput []
        [LocationProcessorResult.location inputLocation false] (by decide)
      simpa [readWithLog, MAX_DEPTH, emptyOutput] using h⟩

/-! ## C8 -/

/-- C8: the round-step invariant.  The run is seeded with exactly one
`LocationResult{location, optional := false}` built from the caller's input;
one step of the loop processes the current items and continues with exactly
the items emitted during that round; and the items a round emits are exactly
the concatenation, in processing order, of the items each of its work items
emitted (so nothing survives a round unprocessed and nothing else is added). -/
theorem claim8_round_invariant :
    (∀ (E : LocationReaders) (loc : LocationSpec),
      readWithLog E loc =
        readGo E loc MAX_DEPTH emptyOutput [] [LocationProcessorResult.location loc false]) ∧
    (∀ (E : LocationReaders) (loc : LocationSpec) (fuel : Nat) (out : ReadLocationResult)
        (log : List (LogLevel × String)) (items : List LocationProcessorResult),
      readGo E loc (fuel + 1) out log items =
        if (processRound E items).emitted = [] then
          ({ entities := out.entities ++ (processRound E items).entities
             errors := out.errors ++ (processRound E items).errors },
            log ++ (processRound E items).log)
        else
          readGo E loc fuel
            { entities := out.entities ++ (processRound E items).entities
              errors := out.errors ++ (processRound E items).errors }
            (log ++ (processRound E items).log) (processRound E items).emitted) ∧
    (∀ (E : LocationReaders) (items : List LocationProcessorResult),
      (processRound E items).emitted =
        (items.map fun i => (processItem E i).emitted).flatten) := by
  refine ⟨fun E loc => rfl, fun E loc fuel out log items => rfl, fun E items => ?_⟩
  induction items with
  | nil => simp [processRound, StepOut.empty]
  | cons i rest ih => simp [processRound, StepOut.append, ih]

/-! ## C5 -/

/-- A `processEntity` hook that emits nothing and never throws: it just
applies a pure transformation. -/
def pureEntityHook (g : Entity → LocationSpec → Entity) :
    Entity → LocationSpec → List LocationProcessorResult × Except String Entity :=
  fun e loc => ([], Except.ok (g e loc))

/-- A processor whose only (optional) capability is a pure `processEntity`
transformation; `none` yields a processor without the capability. -/
def entityPipelineProcessor (o : Option (Entity → LocationSpec → Entity)) : LocationProcessor :=
  { name := "Transform", processEntity := o.map pureEntityHook }

/-- C5: the entity-transform pipeline is a left fold over the chain in
registration order.  For any chain of processors with pure `processEntity`
hooks (processors without the capability interleaved arbitrarily), the final
entity is the left fold of the transformations over the starting entity, each
capable processor receiving the previous one's output; and for an allowed
entity item, the first component of that pipeline — the value returned by the
last capable processor — paired with the item's location, is what is appended
to the output entities list. -/
theorem claim5_pipeline_fold :
    (∀ (os : List (Option (Entity → LocationSpec → Entity))) (ent : Entity) (loc : LocationSpec),
      handleEntityChain (os.map entityPipelineProcessor) ent loc =
        (os.foldl (fun e o => match o with | none => e | some g => g e loc) ent, [])) ∧
    (∀ (E : LocationReaders) (loc : LocationSpec) (ent : Entity),
      (processItem E (LocationProcessorResult.entity loc ent)).entities =
        if E.isAllowed ent loc then [((handleEntityChain E.processors ent loc).1, loc)]
        else []) := by
  refine ⟨fun os ent loc => ?_, fun E loc ent => ?_⟩
  · induction os generalizing ent with
    | nil => simp [handleEntityChain]
    | cons o os ih =>
      cases o with
      | none => simpa [handleEntityChain, entityPipelineProcessor] using ih ent
      | some g => simpa [handleEntityChain, entityPipelineProcessor, pureEntityHook] using ih (g ent loc)
  · by_cases h : E.isAllowed ent loc <;> simp [processItem, h]

/-! ## C10 -/

def seedEntity : Entity := { apiVersion := "v1", kind := "Component", attrs := [] }

def stampEntity (k v : String) (e : Entity) : Entity :=
  { e with attrs := e.attrs ++ [(k, v)] }

def transformAProcessor : LocationProcessor :=
  { name := "TransformA"
    processEntity := some fun e _ => ([], Except.ok (stampEntity "a" "1" e)) }

def faultyEntityProcessor : LocationProcessor :=
  { name := "Faulty"
    processEntity := some fun _ _ => ([], Except.error "Error: boom") }

def transformCProcessor : LocationProcessor :=
  { name := "TransformC"
    processEntity := some fun e _ => ([], Except.ok (stampEntity "c" "3" e)) }

/-- A processor that resolves any location directly into `seedEntity`. -/
def entitySourceProcessor : LocationProcessor :=
  { name := "Source"
    readLocation := some fun loc _ =>
      ([LocationProcessorResult.entity loc seedEntity], Except.ok true) }

def engineC10 : LocationReaders :=
  { processors := [entitySourceProcessor, transformAProcessor, faultyEntityProcessor]
    isAllowed := fun _ _ => true }

/-- C10: a `processEntity` throw partway through the pipeline leaves the fold
to continue from the last non-throwing processor's output (first conjunct: in
the chain transform-A, faulty, transform-C, the faulty processor's throw is
skipped over and transform-C still receives transform-A's output), and at the
`read` level the partially transformed entity is still appended to the output
entities while the same item also contributes the processor-fault error entry
(second conjunct, where the faulty processor is last so the recorded entity
carries only transform-A's stamp). -/
theorem claim10_partial_pipeline :
    (∀ (ent : Entity) (loc : LocationSpec),
      handleEntityChain [transformAProcessor, faultyEntityProcessor, transformCProcessor] ent loc =
        (stampEntity "c" "3" (stampEntity "a" "1" ent),
          [LocationProcessorResult.error loc
              (CatalogError.general (entityThrewMsg "Faulty" loc "Error: boom"))])) ∧
    read engineC10 inputLocation =
      { entities := [(stampEntity "a" "1" seedEntity, inputLocation)]
        errors :=
          [(inputLocation,
              CatalogError.general (entityThrewMsg "Faulty" inputLocation "Error: boom"))] } :=
  ⟨fun ent loc => rfl, by decide⟩

/-! ## C4 -/

/-- If a processor in the chain handles the location (its `readLocation`
returns `true`), the processors after it are irrelevant. -/
theorem handleLocationChain_stops_at_handler
    (ps qs : List LocationProcessor) (p : LocationProcessor) (loc : LocationSpec) (opt : Bool)
    (f : LocationSpec → Bool → List LocationProcessorResult × Except String Bool)
    (hf : p.readLocation = some f) (hr : (f loc opt).2 = Except.ok true) :
    handleLocationChain (ps ++ p :: qs) loc opt = handleLocationChain (ps ++ [p]) loc opt := by
  induction ps with
  | nil =>
    rcases hfo : f loc opt with ⟨es, r⟩
    rw [hfo] at hr
    have hr2 : r = Except.ok true := hr
    subst hr2
    simp [handleLocationChain, hf, hfo]
  | cons q ps ih =>
    cases hq : q.readLocation with
    | none => simp [handleLocationChain, hq, ih]
    | some g =>
      rcases hg : g loc opt with ⟨es, r⟩
      cases r with
      | ok b => cases b <;> simp [handleLocationChain, hq, hg, ih]
      | error e => simp [handleLocationChain, hq, hg, ih]

/-- If every capable processor declines the location, the emitted items are
each capable processor's own emissions in order, closed by exactly one
unhandled-input error. -/
theorem handleLocationChain_exhausted
    (ps : List LocationProcessor) (loc : LocationSpec) (opt : Bool)
    (h : ∀ p ∈ ps, ∀ f, p.readLocation = some f → (f loc opt).2 = Except.ok false) :
    handleLocationChain ps loc opt =
      (ps.map fun p =>
        match p.readLocation with
        | some f => (f loc opt).1
        | none => ([] : List LocationProcessorResult)).flatten ++
        [LocationProcessorResult.error loc (CatalogError.input (noReadMsg loc))] := by
  induction ps with
  | nil => simp [handleLocationChain]
  | cons p ps ih =>
    have hps := fun q hq => h q (List.mem_cons_of_mem _ hq)
    cases hp : p.readLocation with
    | none => simp [handleLocationChain, hp, ih hps]
    | some f =>
      rcases hfo : f loc opt with ⟨es, r⟩
      have hr := h p (List.mem_cons_self _ _) f hp
      rw [hfo] at hr
      have hr2 : r = Except.ok false := hr
      subst hr2
      simp [handleLocationChain, hp, hfo, ih hps]

/-- `parseData` counterpart of `handleLocationChain_stops_at_handler`. -/
theorem handleDataChain_stops_at_handler
    (ps qs : List LocationProcessor) (p : LocationProcessor) (d : List Nat) (loc : LocationSpec)
    (f : List Nat → LocationSpec → List LocationProcessorResult × Except String Bool)
    (hf : p.parseData = some f) (hr : (f d loc).2 = Except.ok true) :
    handleDataChain (ps ++ p :: qs) d loc = handleDataChain (ps ++ [p]) d loc := by
  induction ps with
  | nil =>
    rcases hfo : f d loc with ⟨es, r⟩
    rw [hfo] at hr
    have hr2 : r = Except.ok true := hr
    subst hr2
    simp [handleDataChain, hf, hfo]
  | cons q ps ih =>
    cases hq : q.parseData with
    | none => simp [handleDataChain, hq, ih]
    | some g =>
      rcases hg : g d loc with ⟨es, r⟩
      cases r with
      | ok b => cases b <;> simp [handleDataChain, hq, hg, ih]
      | error e => simp [handleDataChain, hq, hg, ih]

/-- `parseData` counterpart of `handleLocationChain_exhausted`. -/
theorem handleDataChain_exhausted
    (ps : List LocationProcessor) (d : List Nat) (loc : LocationSpec)
    (h : ∀ p ∈ ps, ∀ f, p.parseData = some f → (f d loc).2 = Except.ok false) :
    handleDataChain ps d loc =
      (ps.map fun p =>
        match p.parseData with
        | some f => (f d loc).1
        | none => ([] : List LocationProcessorResult)).flatten ++
        [LocationProcessorResult.error loc (CatalogError.input (noParseMsg loc))] := by
  induction ps with
  | nil => simp [handleDataChain]
  | cons p ps ih =>
    have hps := fun q hq => h q (List.mem_cons_of_mem _ hq)
    cases hp : p.parseData with
    | none => simp [handleDataChain, hp, ih hps]
    | some f =>
      rcases hfo : f d loc with ⟨es, r⟩
      have hr := h p (List.mem_cons_self _ _) f hp
      rw [hfo] at hr
      have hr2 : r = Except.ok false := hr
      subst hr2
      simp [handleDataChain, hp, hfo, ih hps]

/-- C4: first-match-wins for `readLocation` and `parseData`.  If some
processor returns the handled signal, the chain's result does not depend on
any processor registered after it (no later hook can contribute anything);
if every capable processor declines, the engine closes the item with exactly
one no-processor-found (unhandled-input) error for the item's location. -/
theorem claim4_first_match_wins :
    (∀ (ps qs : List LocationProcessor) (p : LocationProcessor) (loc : LocationSpec) (opt : Bool)
        (f : LocationSpec → Bool → List LocationProcessorResult × Except String Bool),
      p.readLocation = some f → (f loc opt).2 = Except.ok true →
      handleLocationChain (ps ++ p :: qs) loc opt = handleLocationChain (ps ++ [p]) loc opt) ∧
    (∀ (ps : List LocationProcessor) (loc : LocationSpec) (opt : Bool),
      (∀ p ∈ ps, ∀ f, p.readLocation = some f → (f loc opt).2 = Except.ok false) →
      handleLocationChain ps loc opt =
        (ps.map fun p =>
          match p.readLocation with
          | some f => (f loc opt).1
          | none => ([] : List LocationProcessorResult)).flatten ++
          [LocationProcessorResult.error loc (CatalogError.input (noReadMsg loc))]) ∧
    (∀ (ps qs : List LocationProcessor) (p : LocationProcessor) (d : List Nat) (loc : LocationSpec)
        (f : List Nat → LocationSpec → List LocationProcessorResult × Except String Bool),
      p.parseData = some f → (f d loc).2 = Except.ok true →
      handleDataChain (ps ++ p :: qs) d loc = handleDataChain (ps ++ [p]) d loc) ∧
    (∀ (ps : List LocationProcessor) (d : List Nat) (loc : LocationSpec),
      (∀ p ∈ ps, ∀ f, p.parseData = some f → (f d loc).2 = Except.ok false) →
      handleDataChain ps d loc =
        (ps.map fun p =>
          match p.parseData with
          | some f => (f d loc).1
          | none => ([] : List LocationProcessorResult)).flatten ++
          [LocationProcessorResult.error loc (CatalogError.input (noParseMsg loc))]) :=
  ⟨fun ps qs p loc opt f hf hr => handleLocationChain_stops_at_handler ps qs p loc opt f hf hr,
    fun ps loc opt h => handleLocationChain_exhausted ps loc opt h,
    fun ps qs p d loc f hf hr => handleDataChain_stops_at_handler ps qs p d loc f hf hr,
    fun ps d loc h => handleDataChain_exhausted ps d loc h⟩

def declineReadHook : LocationSpec → Bool → List LocationProcessorResult × Except String Bool :=
  fun _ _ => ([], Except.ok false)

def declineDataHook : List Nat → LocationSpec → List LocationProcessorResult × Except String Bool :=
  fun _ _ => ([], Except.ok false)

/-- A processor that declines every location and every data payload. -/
def declineProcessor : LocationProcessor :=
  { name := "Decline"
    readLocation := some declineReadHook
    parseData := some declineDataHook }

/-- A processor that handles every location and every data payload. -/
def acceptProcessor : LocationProcessor :=
  { name := "Accept"
    readLocation := some fun _ _ => ([], Except.ok true)
    parseData := some fun _ _ => ([], Except.ok true) }

/-- A processor that would observably emit if it were ever reached. -/
def neverReachedProcessor : LocationProcessor :=
  { name := "NeverReached"
    readLocation := some fun loc _ => ([LocationProcessorResult.location loc true], Except.ok true)
    parseData := some fun _ loc => ([LocationProcessorResult.location loc true], Except.ok true) }

/-- C4 witness: with the chain decline-accept-neverReached, the accepting
processor's handled signal cuts the chain before the third processor; with
the chain of just the declining processor, the result is exactly the
unhandled-input error. -/
theorem claim4_witness :
    (handleLocationChain [declineProcessor, acceptProcessor, neverReachedProcessor]
        inputLocation false =
      handleLocationChain [declineProcessor, acceptProcessor] inputLocation false) ∧
    (handleLocationChain [declineProcessor] inputLocation false =
      [LocationProcessorResult.error inputLocation (CatalogError.input (noReadMsg inputLocation))]) ∧
    (handleDataChain [declineProcessor, acceptProcessor, neverReachedProcessor] [7] inputLocation =
      handleDataChain [declineProcessor, acceptProcessor] [7] inputLocation) ∧
    (handleDataChain [declineProcessor] [7] inputLocation =
      [LocationProcessorResult.error inputLocation (CatalogError.input (noParseMsg inputLocation))]) := by
  refine ⟨claim4_first_match_wins.1 [declineProcessor] [neverReachedProcessor] acceptProcessor
      inputLocation false _ rfl rfl,
    claim4_first_match_wins.2.1 [declineProcessor] inputLocation false ?_,
    claim4_first_match_wins.2.2.1 [declineProcessor] [neverReachedProcessor] acceptProcessor
      [7] inputLocation _ rfl rfl,
    claim4_first_match_wins.2.2.2 [declineProcessor] [7] inputLocation ?_⟩
  · intro p hp f hf
    simp only [List.mem_singleton] at hp
    subst hp
    have hf2 : some declineReadHook = some f := hf
    injection hf2 with h
    subst h
    rfl
  · intro p hp f hf
    simp only [List.mem_singleton] at hp
    subst hp
    have hf2 : some declineDataHook = some f := hf
    injection hf2 with h
    subst h
    rfl

/-! ## C6 -/

def faultyDataProcessor : LocationProcessor :=
  { name := "FaultyData"
    parseData := some fun _ _ => ([], Except.error "Error: boom") }

def faultyErrorHandlerProcessor : LocationProcessor :=
  { name := "FaultyHandler"
    handleError := some fun _ _ => ([], Except.error "Error: boom") }

/-- C6: failure isolation.  For each of the four hooks, a processor throw is
caught at that hook: the chain's result is the hook's own emissions, then one
wrapped processor-fault error item carrying the item's original location and
the failing processor's name, then exactly the result of the remaining chain
— so processing continues with the next processor and the chain never
aborts.  The last conjunct shows that one round processes every sibling item
after the current one regardless of what the current item's dispatch
produced, so an item can only ever add contributions, never stop the loop. -/
theorem claim6_fault_isolation :
    (∀ (p : LocationProcessor) (qs : List LocationProcessor) (loc : LocationSpec) (opt : Bool)
        (f : LocationSpec → Bool → List LocationProcessorResult × Except String Bool) (e : String),
      p.readLocation = some f → (f loc opt).2 = Except.error e →
      handleLocationChain (p :: qs) loc opt =
        (f loc opt).1 ++
          LocationProcessorResult.error loc (CatalogError.general (readThrewMsg p.name loc e)) ::
            handleLocationChain qs loc opt) ∧
    (∀ (p : LocationProcessor) (qs : List LocationProcessor) (d : List Nat) (loc : LocationSpec)
        (f : List Nat → LocationSpec → List LocationProcessorResult × Except String Bool)
        (e : String),
      p.parseData = some f → (f d loc).2 = Except.error e →
      handleDataChain (p :: qs) d loc =
        (f d loc).1 ++
          LocationProcessorResult.error loc (CatalogError.general (parseThrewMsg p.name loc e)) ::
            handleDataChain qs d loc) ∧
    (∀ (p : LocationProcessor) (qs : List LocationProcessor) (ent : Entity) (loc : LocationSpec)
        (f : Entity → LocationSpec → List LocationProcessorResult × Except String Entity)
        (e : String),
      p.processEntity = some f → (f ent loc).2 = Except.error e →
      handleEntityChain (p :: qs) ent loc =
        ((handleEntityChain qs ent loc).1,
          (f ent loc).1 ++
            LocationProcessorResult.error loc (CatalogError.general (entityThrewMsg p.name loc e)) ::
              (handleEntityChain qs ent loc).2)) ∧
    (∀ (p : LocationProcessor) (qs : List LocationProcessor) (err : CatalogError)
        (loc : LocationSpec)
        (f : CatalogError → LocationSpec → List LocationProcessorResult × Except String Unit)
        (e : String),
      p.handleError = some f → (f err loc).2 = Except.error e →
      handleErrorChain (p :: qs) err loc =
        (f err loc).1 ++
          LocationProcessorResult.error loc (CatalogError.general (errorThrewMsg p.name loc e)) ::
            handleErrorChain qs err loc) ∧
    (∀ (E : LocationReaders) (i : LocationProcessorResult) (rest : List LocationProcessorResult),
      processRound E (i :: rest) = StepOut.append (processItem E i) (processRound E rest)) := by
  refine ⟨?_, ?_, ?_, ?_, fun E i rest => rfl⟩
  · intro p qs loc opt f e hf hr
    rcases hfo : f loc opt with ⟨es, r⟩
    rw [hfo] at hr
    have hr2 : r = Except.error e := hr
    subst hr2
    simp [handleLocationChain, hf, hfo]
  · intro p qs d loc f e hf hr
    rcases hfo : f d loc with ⟨es, r⟩
    rw [hfo] at hr
    have hr2 : r = Except.error e := hr
    subst hr2
    simp [handleDataChain, hf, hfo]
  · intro p qs ent loc f e hf hr
    rcases hfo : f ent loc with ⟨es, r⟩
    rw [hfo] at hr
    have hr2 : r = Except.error e := hr
    subst hr2
    simp [handleEntityChain, hf, hfo]
  · intro p qs err loc f e hf hr
    rcases hfo : f err loc with ⟨es, r⟩
    rw [hfo] at hr
    have hr2 : r = Except.error e := hr
    subst hr2
    simp [handleErrorChain, hf, hfo]

/-- C6 witness: each of the five conjuncts instantiated — a throwing
`readLocation`, `parseData`, `processEntity` and `handleError` processor
followed by one more processor, and a round with a sibling item after a
faulting one. -/
theorem claim6_witness :
    (handleLocationChain [throwProcessor, consumeProcessor] inputLocation false =
      [LocationProcessorResult.error inputLocation
          (CatalogError.general (readThrewMsg "Thrower" inputLocation "Error: boom"))]) ∧
    (handleDataChain [faultyDataProcessor, declineProcessor] [7] inputLocation =
      [LocationProcessorResult.error inputLocation
          (CatalogError.general (parseThrewMsg "FaultyData" inputLocation "Error: boom")),
        LocationProcessorResult.error inputLocation (CatalogError.input (noParseMsg inputLocation))]) ∧
    (handleEntityChain [faultyEntityProcessor, transformCProcessor] seedEntity inputLocation =
      (stampEntity "c" "3" seedEntity,
        [LocationProcessorResult.error inputLocation
            (CatalogError.general (entityThrewMsg "Faulty" inputLocation "Error: boom"))])) ∧
    (handleErrorChain [faultyErrorHandlerProcessor]
        (CatalogError.general "Error: x") inputLocation =
      [LocationProcessorResult.error inputLocation
          (CatalogError.general (errorThrewMsg "FaultyHandler" inputLocation "Error: boom"))]) ∧
    (processRound engineC9
        [LocationProcessorResult.location inputLocation false,
          LocationProcessorResult.error inputLocation (CatalogError.general "Error: x")] =
      StepOut.append
        (processItem engineC9 (LocationProcessorResult.location inputLocation false))
        (processRound engineC9
          [LocationProcessorResult.error inputLocation (CatalogError.general "Error: x")])) :=
  ⟨claim6_fault_isolation.1 throwProcessor [consumeProcessor] inputLocation false _ "Error: boom"
      rfl rfl,
    claim6_fault_isolation.2.1 faultyDataProcessor [declineProcessor] [7] inputLocation _
      "Error: boom" rfl rfl,
    claim6_fault_isolation.2.2.1 faultyEntityProcessor [transformCProcessor] seedEntity
      inputLocation _ "Error: boom" rfl rfl,
    claim6_fault_isolation.2.2.2.1 faultyErrorHandlerProcessor []
      (CatalogError.general "Error: x") inputLocation _ "Error: boom" rfl rfl,
    claim6_fault_isolation.2.2.2.2 engineC9
      (LocationProcessorResult.location inputLocation false)
      [LocationProcessorResult.error inputLocation (CatalogError.general "Error: x")]⟩

/-! ## C9 -/

/-- A processor that resolves any location into one raw data item. -/
def dataSourceProcessor : LocationProcessor :=
  { name := "DataSource"
    readLocation := some fun loc _ => ([LocationProcessorResult.data loc [7]], Except.ok true) }

/-- An engine whose data item is parsed by nobody: its only `parseData`
capability throws. -/
def engineC9Data : LocationReaders :=
  { processors := [dataSourceProcessor, faultyDataProcessor], isAllowed := fun _ _ => true }

/-- C9: a throw from `readLocation` or `parseData` is not a handled signal —
the chain continues past the thrower (first two conjuncts, for an arbitrary
remaining chain), and when no remaining processor handles the item either,
the no-processor-found error is emitted as well; so with a chain whose only
capable `readLocation` (resp. `parseData`) throws, `read` returns both a
processor-fault error and an unhandled-input error for the same item's
location (last two conjuncts). -/
theorem claim9_fault_then_unhandled :
    (∀ (qs : List LocationProcessor) (loc : LocationSpec) (opt : Bool),
      handleLocationChain (throwProcessor :: qs) loc opt =
        LocationProcessorResult.error loc
            (CatalogError.general (readThrewMsg "Thrower" loc "Error: boom")) ::
          handleLocationChain qs loc opt) ∧
    (∀ (qs : List LocationProcessor) (d : List Nat) (loc : LocationSpec),
      handleDataChain (faultyDataProcessor :: qs) d loc =
        LocationProcessorResult.error loc
            (CatalogError.general (parseThrewMsg "FaultyData" loc "Error: boom")) ::
          handleDataChain qs d loc) ∧
    read engineC9 inputLocation =
      { entities := []
        errors :=
          [(inputLocation,
              CatalogError.general (readThrewMsg "Thrower" inputLocation "Error: boom")),
            (inputLocation, CatalogError.input (noReadMsg inputLocation))] } ∧
    read engineC9Data inputLocation =
      { entities := []
        errors :=
          [(inputLocation,
              CatalogError.general (parseThrewMsg "FaultyData" inputLocation "Error: boom")),
            (inputLocation, CatalogError.input (noParseMsg inputLocation))] } :=
  ⟨fun qs loc opt => rfl, fun qs d loc => rfl, by decide, by decide⟩
